import Mathlib

/-!
Verification of the Video Composition Engine of the videoStacking video
processor.  The definitions below are shallow embeddings of the JavaScript
source (FFmpegRenderer, ImageHandlingModes, MathematicalSizing,
PlatformTemplates, VideoGenerator); JavaScript numbers are modelled as
rationals (`ℚ`), except where IEEE-754 special values matter, where an
explicit `JSNum` carrier with NaN/Infinity is used.
-/

namespace VideoStacking

/-! ### Filter-graph duration compensation
Embedding of `FFmpegRenderer.buildFilterComplex` (duration bookkeeping,
src/unnamed/part_005 lines 1561-1573):
`transitionCount = Math.max(0, numSegments - 1)`,
`adjustedDuration = duration + transitionCount * transitionDuration`,
`actualImageDuration = adjustedDuration / numSegments`. -/

/-- The resolved transition duration `transition.duration || 0.5`: a zero (or
missing, here unrepresented) duration is falsy in JavaScript and falls back
to the 0.5 s default. -/
def resolvedTransitionDuration (transitionDuration : ℚ) : ℚ :=
  if transitionDuration = 0 then 0.5 else transitionDuration

/-- The source's `transitionCount = Math.max(0, numSegments - 1)`; truncated
subtraction on `ℕ` is exactly that. -/
def transitionCount (numSegments : ℕ) : ℕ := numSegments - 1

/-- The source's `adjustedDuration = duration + totalTransitionTime` with
`totalTransitionTime = transitionCount * (transition.duration || 0.5)`. -/
def adjustedDuration (duration transitionDuration : ℚ) (numSegments : ℕ) : ℚ :=
  duration + (transitionCount numSegments : ℚ) *
    resolvedTransitionDuration transitionDuration

/-- The source's `actualImageDuration = adjustedDuration / numSegments`. -/
def actualImageDuration (duration transitionDuration : ℚ) (numSegments : ℕ) : ℚ :=
  adjustedDuration duration transitionDuration numSegments / (numSegments : ℚ)

/-! ### Layout-mode recommendation
Embedding of `ImageHandlingModes.recommendMode`
(src/unnamed/part_005 lines 135-148); the mode constants are the strings of
the source's `this.modes`. -/

/-- Embeds `recommendMode(imageAspect, videoAspect)`: relative mismatch against the
video aspect classifies crop-fill / blur-background / letterbox. -/
def recommendMode (imageAspect videoAspect : ℚ) : String :=
  let mismatchRatio := |imageAspect - videoAspect| / videoAspect
  if mismatchRatio < 0.2 then "crop_fill"
  else if mismatchRatio < 0.5 then "blur_bg"
  else "letterbox"

/-! ### Transition-duration adjustment in `buildCommand`
Embedding of `FFmpegRenderer.buildCommand` (src/unnamed/part_005
lines 787-806): the renderer always computes `adjustedTransition` from the
image count, then routes to the chunked builder (with the caller's original
`transition`) when more than `BATCH_THRESHOLD = 6` images are present, and
otherwise hands `adjustedTransition` to `buildFilterComplex`. -/

structure TransitionSpec where
  kind : String
  duration : ℚ
deriving DecidableEq

/-- The `adjustedTransition` computed in `buildCommand`. -/
def adjustedTransition (imageCount : ℕ) (transition : TransitionSpec) : TransitionSpec :=
  if 8 < imageCount then { transition with duration := 0.25 }
  else if 5 < imageCount then { transition with duration := 0.4 }
  else { transition with duration := 0.6 }

/-- Which render path `buildCommand` takes. -/
inductive RenderPath
  | singleGraph
  | chunked
deriving DecidableEq

/-- The threshold routing of `buildCommand`: `images.length > BATCH_THRESHOLD`
selects `buildCommandChunked`. -/
def buildCommandPath (imageCount : ℕ) : RenderPath :=
  if 6 < imageCount then .chunked else .singleGraph

/-- The transition spec that actually reaches the filter-building layer:
`buildCommandChunked` receives the caller's original `options.transition`,
while the single-graph call to `buildFilterComplex` receives
`adjustedTransition`. -/
def effectiveTransition (imageCount : ℕ) (transition : TransitionSpec) : TransitionSpec :=
  if 6 < imageCount then transition else adjustedTransition imageCount transition

/-! ### Letterbox filter builder
Embedding of `ImageHandlingModes.buildLetterboxFilter`
(src/unnamed/part_005 lines 50-86).  The emitted FFmpeg filter string is
reproduced verbatim. -/

/-- Embeds `buildLetterboxFilter(params)`: fill the frame when the orientations match
and the aspect ratios are within 15%, otherwise put the scaled-to-fit image
over a solid background field. -/
def buildLetterboxFilter (inputIndex videoWidth videoHeight imageWidth imageHeight : ℕ)
    (backgroundColor : String) : String :=
  let videoAspectRatio : ℚ := (videoWidth : ℚ) / (videoHeight : ℚ)
  let imageAspectRatio : ℚ := (imageWidth : ℚ) / (imageHeight : ℚ)
  let videoIsVertical := videoAspectRatio < 1
  let imageIsVertical := imageAspectRatio < 1
  let aspectRatioSimilarity := |videoAspectRatio - imageAspectRatio| / videoAspectRatio
  if (videoIsVertical ↔ imageIsVertical) ∧ aspectRatioSimilarity < 0.15 then
    s!"[{inputIndex}:v]scale={videoWidth}:{videoHeight}:force_original_aspect_ratio=increase,crop={videoWidth}:{videoHeight}[letterboxed]"
  else
    String.intercalate ";"
      [s!"color=c={backgroundColor}:s={videoWidth}x{videoHeight}[bg{inputIndex}]",
       s!"[{inputIndex}:v]scale={videoWidth}:{videoHeight}:force_original_aspect_ratio=decrease[img{inputIndex}]",
       s!"[bg{inputIndex}][img{inputIndex}]overlay=(W-w)/2:(H-h)/2[letterboxed]"]

/-! ### Audio section of `buildFilterComplex`
Embedding of src/unnamed/part_005 lines 1698-1713: the four audio cases
(voice and music / voice only / music only / neither). -/

/-- The audio filters appended by `buildFilterComplex`, as a function of which
audio inputs are present and of the output duration. -/
def audioFilters (voiceIndex musicIndex : Option ℕ) (duration : ℚ) : List String :=
  match voiceIndex, musicIndex with
  | some v, some m =>
      [s!"[{v}:a]adelay=1500|1500[delayed_voice]",
       s!"[{m}:a]afade=t=in:st=0:d=1.5,afade=t=out:st={duration - 1.5}:d=1.5,volume=0.15[music_faded]",
       "[delayed_voice][music_faded]amix=inputs=2:duration=longest[audio]"]
  | some v, none =>
      [s!"[{v}:a]adelay=1500|1500[audio]"]
  | none, some m =>
      [s!"[{m}:a]afade=t=in:st=0:d=1.5,afade=t=out:st={duration - 1.5}:d=1.5,volume=0.3[audio]"]
  | none, none =>
      [s!"anullsrc=channel_layout=stereo:sample_rate=48000:duration={duration}[audio]"]

/-! ### Mathematical sizing engine
Embedding of `MathematicalSizing` (src/unnamed/part_005 lines 191-416):
the constants (`PHI_INVERSE`, the 5% clear-space constant), the platform
config table, `calculateGoldenPosition` and `calculateLogoSize`.
JavaScript numbers are modelled as `ℚ`; `Math.round` is `⌊q + 1/2⌋`. -/

/-- The constant `this.PHI_INVERSE = 0.618033988749895`. -/
def phiInverse : ℚ := 0.618033988749895

/-- The 5% minimum clear-space constant of `MathematicalSizing`. -/
def minClearSpaceRatio : ℚ := 0.05

/-- One entry of `this.PLATFORM_CONFIGS`. -/
structure PlatformConfig where
  aspectRatio : ℚ
  logoHeightPercent : ℚ
  reference : String
  minSize : ℕ
  maxSize : ℕ
  maxWidthPercent : Option ℚ := none
deriving DecidableEq

/-- Embeds `PLATFORM_CONFIGS[platform] || PLATFORM_CONFIGS['youtube']`: the platform
config lookup with its fallback to the youtube entry. -/
def platformConfig (platform : String) : PlatformConfig :=
  if platform = "youtube" then ⟨16/9, 0.0833, "height", 80, 200, none⟩
  else if platform = "instagram_reel" then ⟨9/16, 0.10, "width", 100, 200, none⟩
  else if platform = "tiktok" then ⟨9/16, 0.10, "width", 100, 200, none⟩
  else if platform = "instagram_feed" then ⟨1/1, 0.125, "width", 100, 250, none⟩
  else if platform = "facebook" then ⟨16/9, 0.0833, "height", 80, 200, none⟩
  else if platform = "linkedin" then ⟨16/9, 0.0625, "height", 70, 180, some 0.25⟩
  else if platform = "youtube_shorts" then ⟨9/16, 0.10, "width", 100, 200, none⟩
  else if platform = "facebook_reels" then ⟨9/16, 0.10, "width", 100, 200, none⟩
  else if platform = "instagram" then ⟨9/16, 0.10, "width", 100, 200, none⟩
  else ⟨16/9, 0.0833, "height", 80, 200, none⟩

/-- JavaScript `Math.round` on an ordinary finite value: half-up rounding. -/
def jsRound (q : ℚ) : ℤ := ⌊q + 1/2⌋

/-- Embeds `calculateGoldenPosition(containerWidth, containerHeight, elementWidth,
elementHeight, position)`; unknown anchor names fall back to bottom-right. -/
def calculateGoldenPosition (containerWidth containerHeight elementWidth elementHeight : ℚ)
    (position : String) : ℚ × ℚ :=
  let marginX := containerWidth * minClearSpaceRatio
  let marginY := containerHeight * minClearSpaceRatio
  let goldenX := containerWidth * phiInverse
  let goldenY := containerHeight * phiInverse
  if position = "top-left" then (marginX, marginY)
  else if position = "top-center" then ((containerWidth - elementWidth) / 2, marginY)
  else if position = "top-right" then (containerWidth - elementWidth - marginX, marginY)
  else if position = "center" then
    ((containerWidth - elementWidth) / 2, (containerHeight - elementHeight) / 2)
  else if position = "bottom-left" then (marginX, containerHeight - elementHeight - marginY)
  else if position = "bottom-center" then
    ((containerWidth - elementWidth) / 2, containerHeight - elementHeight - marginY)
  else if position = "bottom-right" then
    (containerWidth - elementWidth - marginX, containerHeight - elementHeight - marginY)
  else if position = "golden-top-left" then (goldenX - elementWidth / 2, marginY)
  else if position = "golden-bottom-right" then
    (containerWidth - goldenX - elementWidth / 2, containerHeight - goldenY - elementHeight / 2)
  else (containerWidth - elementWidth - marginX, containerHeight - elementHeight - marginY)

/-- Steps 1-3 of `calculateLogoSize`: the `scaledHeight` local variable after
the golden-ratio width clamp. -/
def logoScaledHeight (platform : String) (videoWidth videoHeight originalLogoWidth originalLogoHeight : ℚ) : ℚ :=
  let config := platformConfig platform
  let aspectRatio := videoWidth / videoHeight
  let referenceDimension :=
    if config.reference = "width" ∨ aspectRatio < 0.7 then videoWidth else videoHeight
  let targetSize := referenceDimension * config.logoHeightPercent
  let logoAspectRatio := originalLogoWidth / originalLogoHeight
  if 1 < logoAspectRatio then
    let scaledWidth := targetSize * logoAspectRatio
    let maxWidth0 := videoWidth * phiInverse * 0.5
    let maxWidth :=
      match config.maxWidthPercent with
      | some p => if videoWidth * p < maxWidth0 then videoWidth * p else maxWidth0
      | none => maxWidth0
    if maxWidth < scaledWidth then maxWidth / logoAspectRatio else targetSize
  else targetSize

/-- Step 4 of `calculateLogoSize`: the `scale` local variable. -/
def logoScale (platform : String) (videoWidth videoHeight originalLogoWidth originalLogoHeight : ℚ) : ℚ :=
  let config := platformConfig platform
  let logoAspectRatio := originalLogoWidth / originalLogoHeight
  min (logoScaledHeight platform videoWidth videoHeight originalLogoWidth originalLogoHeight /
        originalLogoHeight)
    (min ((config.maxSize : ℚ) / originalLogoHeight)
      ((config.maxSize : ℚ) / originalLogoWidth * logoAspectRatio))

/-- The `finalHeight` local variable:
`Math.max(Math.min(originalLogoHeight * scale, config.maxSize), config.minSize)`. -/
def logoFinalHeight (platform : String) (videoWidth videoHeight originalLogoWidth originalLogoHeight : ℚ) : ℚ :=
  let config := platformConfig platform
  max (min (originalLogoHeight *
             logoScale platform videoWidth videoHeight originalLogoWidth originalLogoHeight)
        (config.maxSize : ℚ))
    (config.minSize : ℚ)

/-- The `finalWidth` local variable: `finalHeight * logoAspectRatio`. -/
def logoFinalWidth (platform : String) (videoWidth videoHeight originalLogoWidth originalLogoHeight : ℚ) : ℚ :=
  logoFinalHeight platform videoWidth videoHeight originalLogoWidth originalLogoHeight *
    (originalLogoWidth / originalLogoHeight)

/-- The object returned by `calculateLogoSize`. -/
structure LogoSize where
  width : ℤ
  height : ℤ
  x : ℤ
  y : ℤ
  scale : ℚ
  reference : String
  targetPercentage : ℚ
deriving DecidableEq

/-- Embeds `calculateLogoSize(platform, videoWidth, videoHeight, originalLogoWidth,
originalLogoHeight)` (src/unnamed/part_005 lines 280-356). -/
def calculateLogoSize (platform : String)
    (videoWidth videoHeight originalLogoWidth originalLogoHeight : ℚ) : LogoSize :=
  let config := platformConfig platform
  let finalHeight := logoFinalHeight platform videoWidth videoHeight originalLogoWidth originalLogoHeight
  let finalWidth := logoFinalWidth platform videoWidth videoHeight originalLogoWidth originalLogoHeight
  let position := calculateGoldenPosition videoWidth videoHeight finalWidth finalHeight "bottom-right"
  { width := jsRound finalWidth
    height := jsRound finalHeight
    x := jsRound position.1
    y := jsRound position.2
    scale := logoScale platform videoWidth videoHeight originalLogoWidth originalLogoHeight
    reference := config.reference
    targetPercentage := config.logoHeightPercent * 100 }

/-- Every platform string resolves (possibly through the youtube fallback) to
a config with a positive min size not exceeding the max size. -/
theorem platformConfig_range_valid (platform : String) :
    0 < (platformConfig platform).minSize ∧
    (platformConfig platform).minSize ≤ (platformConfig platform).maxSize := by
  unfold platformConfig
  split_ifs <;> exact ⟨by norm_num, by norm_num⟩

/-- The rounding `jsRound` never drops below an integer lower bound. -/
theorem le_jsRound_of_le (a : ℕ) (q : ℚ) (h : (a : ℚ) ≤ q) : (a : ℤ) ≤ jsRound q := by
  unfold jsRound
  rw [Int.le_floor]
  push_cast
  linarith

/-- The rounding `jsRound` never exceeds an integer upper bound. -/
theorem jsRound_le_of_le (b : ℕ) (q : ℚ) (h : q ≤ (b : ℚ)) : jsRound q ≤ (b : ℤ) := by
  unfold jsRound
  have : (⌊(q + 1/2 : ℚ)⌋ : ℤ) ≤ ⌊((b : ℚ) + 1/2)⌋ := Int.floor_le_floor (by linarith)
  have hb : ⌊((b : ℚ) + 1/2)⌋ = b := by
    rw [add_comm, Int.floor_add_nat]
    norm_num
  omega

/-- The rounding `jsRound` moves a value by at most 1/2. -/
theorem jsRound_dist (q : ℚ) : |(jsRound q : ℚ) - q| ≤ 1/2 := by
  unfold jsRound
  have h1 : ((⌊(q + 1/2 : ℚ)⌋ : ℚ)) ≤ q + 1/2 := Int.floor_le _
  have h2 : q + 1/2 - 1 < ((⌊(q + 1/2 : ℚ)⌋ : ℚ)) := Int.sub_one_lt_floor _
  rw [abs_le]
  constructor <;> [linarith; linarith]

/-- Predicate `leadsWith pat l` is true when `l` starts with `pat`. -/
def leadsWith : List Char → List Char → Bool
  | [], _ => true
  | _ :: _, [] => false
  | a :: as, b :: bs => a == b && leadsWith as bs

/-- Predicate `occursIn pat l` is true when `pat` occurs contiguously inside `l`. -/
def occursIn (pat : List Char) : List Char → Bool
  | [] => leadsWith pat []
  | a :: rest => leadsWith pat (a :: rest) || occursIn pat rest

/-! ### Batch scheduling (chunking)
Embedding of the chunk computation in `FFmpegRenderer.buildCommandChunked`
(src/unnamed/part_005 lines 898-948): `CHUNK_SIZE = 3`, `OVERLAP = 1`.  The
source's while loop over `idx` is rendered as fuel recursion; fuel
`images.length` suffices because `idx` strictly increases at every
iteration.  The overlap image `images[idx - OVERLAP]` is expressed as
`(images.drop (idx - 1)).take 1`. -/

/-- One entry of the `chunks` array of `buildCommandChunked`. -/
structure Chunk (α : Type) where
  images : List α
  startIdx : ℕ
  hasOverlap : Bool

/-- The body of the chunking while loop.  `min 3 (images.length - idx)` is the
`count` local variable; the inner `if` is the overlap condition
`!isFirstChunk && idx > 0`. -/
def chunksGo {α : Type} (images : List α) : ℕ → ℕ → Bool → List (Chunk α)
  | 0, _, _ => []
  | fuel + 1, idx, isFirst =>
    if idx < images.length then
      { images := (if isFirst = false ∧ 0 < idx then (images.drop (idx - 1)).take 1 else []) ++
          (images.drop idx).take (min 3 (images.length - idx)),
        startIdx := idx,
        hasOverlap := !isFirst } ::
        chunksGo images fuel (idx + min 3 (images.length - idx)) false
    else []

/-- The full chunk list computed by `buildCommandChunked`. -/
def buildChunks {α : Type} (images : List α) : List (Chunk α) :=
  chunksGo images images.length 0 true

/-- Embeds `chunkDuration = (duration * chunkImages.length) / images.length`
(src/unnamed/part_005 line 942). -/
def chunkDuration {α : Type} (duration : ℚ) (totalImages : ℕ) (c : Chunk α) : ℚ :=
  duration * (c.images.length : ℚ) / (totalImages : ℚ)

/-- The images a chunk contributes beyond its overlap image. -/
def freshImages {α : Type} (c : Chunk α) : List α :=
  c.images.drop (if c.hasOverlap then 1 else 0)

/-- The `outputDuration` accumulator of `concatenateChunksWithTransitions`
(src/unnamed/part_005 lines 1149-1178): starts at the first chunk duration and
gains `chunkDurations[i] - transitionDuration` per xfade join. -/
def finalOutputDuration (transitionDuration : ℚ) : List ℚ → ℚ
  | [] => 0
  | d :: rest => rest.foldl (fun acc d2 => acc + d2 - transitionDuration) d

theorem overlapSlice_length {α : Type} (images : List α) (idx : ℕ)
    (hidx : idx < images.length) :
    ((images.drop (idx - 1)).take 1).length = 1 := by
  rw [List.length_take, List.length_drop]
  omega

/-- Normalized one-step unfolding of `chunksGo` under the loop invariant that
`isFirst = false` only occurs with `0 < idx`. -/
theorem chunksGo_cons {α : Type} (images : List α) (fuel idx : ℕ) (b : Bool)
    (hidx : idx < images.length) (hb : b = false → 0 < idx) :
    chunksGo images (fuel + 1) idx b =
      { images := (if b = false then (images.drop (idx - 1)).take 1 else []) ++
          (images.drop idx).take (min 3 (images.length - idx)),
        startIdx := idx,
        hasOverlap := !b } :: chunksGo images fuel (idx + min 3 (images.length - idx)) false := by
  rw [chunksGo, if_pos hidx]
  cases b with
  | true =>
      rw [if_neg (by simp), if_neg (by simp)]
  | false =>
      have h0 : 0 < idx := hb rfl
      rw [if_pos ⟨rfl, h0⟩, if_pos rfl]

theorem chunksGo_stop {α : Type} (images : List α) (fuel idx : ℕ) (b : Bool)
    (hidx : ¬ idx < images.length) :
    chunksGo images (fuel + 1) idx b = [] := by
  rw [chunksGo, if_neg hidx]

theorem chunksGo_ne_nil_imp {α : Type} (images : List α) (fuel idx : ℕ) (b : Bool)
    (h : chunksGo images fuel idx b ≠ []) : idx < images.length := by
  by_contra hidx
  cases fuel with
  | zero => exact h rfl
  | succ n => exact h (chunksGo_stop images n idx b hidx)

/-- Every chunk produced once past the first iteration is flagged as carrying
an overlap. -/
theorem chunksGo_overlap_flags {α : Type} (images : List α) :
    ∀ (fuel idx : ℕ), ∀ c ∈ chunksGo images fuel idx false, c.hasOverlap = true := by
  intro fuel
  induction fuel with
  | zero => intro idx c hc; cases hc
  | succ n ih =>
      intro idx c hc
      by_cases hidx : idx < images.length
      · rw [chunksGo, if_pos hidx] at hc
        rcases List.mem_cons.mp hc with rfl | htail
        · rfl
        · exact ih _ c htail
      · rw [chunksGo_stop images n idx false hidx] at hc
        cases hc

theorem head?_take_one {α : Type} (l : List α) : (l.take 1).head? = l.head? := by
  cases l <;> rfl

theorem drop_one_append {α : Type} (o t : List α) (h : o.length = 1) : (o ++ t).drop 1 = t := by
  rw [← h]
  exact List.drop_left o t

theorem head?_drop {α : Type} (l : List α) (n : ℕ) : (l.drop n).head? = l[n]? := by
  induction n generalizing l with
  | zero => cases l <;> simp
  | succ m ih =>
      cases l with
      | nil => rfl
      | cons a t => simpa using ih t

/-- Every produced chunk has at least one image. -/
theorem chunksGo_images_ne_nil {α : Type} (images : List α) :
    ∀ (fuel idx : ℕ) (b : Bool), ∀ c ∈ chunksGo images fuel idx b, c.images ≠ [] := by
  intro fuel
  induction fuel with
  | zero => intro idx b c hc; cases hc
  | succ n ih =>
      intro idx b c hc
      by_cases hidx : idx < images.length
      · rw [chunksGo, if_pos hidx] at hc
        rcases List.mem_cons.mp hc with rfl | htail
        · intro h
          rw [List.append_eq_nil] at h
          have ht : ((images.drop idx).take (min 3 (images.length - idx))).length ≠ 0 := by
            rw [List.length_take, List.length_drop]
            omega
          exact ht (by rw [h.2]; rfl)
        · exact ih _ _ c htail
      · rw [chunksGo_stop images n idx b hidx] at hc
        cases hc

/-- The fresh (non-overlap) images of the chunk built at position `idx`. -/
theorem freshImages_cons_chunk {α : Type} (images : List α) (idx : ℕ) (b : Bool)
    (hidx : idx < images.length) :
    freshImages ({ images := (if b = false then (images.drop (idx - 1)).take 1 else []) ++
                     (images.drop idx).take (min 3 (images.length - idx)),
                   startIdx := idx, hasOverlap := !b } : Chunk α) =
      (images.drop idx).take (min 3 (images.length - idx)) := by
  unfold freshImages
  cases b with
  | true => simp
  | false =>
      have h1 : (if (false : Bool) = false then (images.drop (idx - 1)).take 1
          else ([] : List α)) = (images.drop (idx - 1)).take 1 := if_pos rfl
      rw [h1]
      show ((images.drop (idx - 1)).take 1 ++
          (images.drop idx).take (min 3 (images.length - idx))).drop 1 =
        (images.drop idx).take (min 3 (images.length - idx))
      exact drop_one_append _ _ (overlapSlice_length images idx hidx)

/-- The fresh segments of the chunks concatenate back to the suffix of the
image list from `idx` on. -/
theorem chunksGo_join_fresh {α : Type} (images : List α) :
    ∀ (fuel idx : ℕ) (b : Bool), images.length - idx ≤ fuel → (b = false → 0 < idx) →
      ((chunksGo images fuel idx b).map freshImages).flatten = images.drop idx := by
  intro fuel
  induction fuel with
  | zero =>
      intro idx b hfuel _
      rw [chunksGo]
      rw [List.drop_eq_nil_of_le (by omega)]
      rfl
  | succ n ih =>
      intro idx b hfuel hb
      by_cases hidx : idx < images.length
      · rw [chunksGo_cons images n idx b hidx hb]
        rw [List.map_cons, List.flatten_cons, freshImages_cons_chunk images idx b hidx]
        have hcount : 1 ≤ min 3 (images.length - idx) := by omega
        rw [ih (idx + min 3 (images.length - idx)) false (by omega) (fun _ => by omega)]
        rw [show images.drop (idx + min 3 (images.length - idx)) =
              (images.drop idx).drop (min 3 (images.length - idx)) by
            rw [List.drop_drop]]
        exact List.take_append_drop _ _
      · rw [chunksGo_stop images n idx b hidx]
        rw [List.drop_eq_nil_of_le (by omega)]
        rfl

/-- Total image count across chunks produced from a mid-loop state: the
remaining images plus one overlap image per produced chunk. -/
theorem chunksGo_sum_len {α : Type} (images : List α) :
    ∀ (fuel idx : ℕ), 0 < idx → images.length - idx ≤ fuel →
      ((chunksGo images fuel idx false).map (fun c => c.images.length)).sum =
        (images.length - idx) + (chunksGo images fuel idx false).length := by
  intro fuel
  induction fuel with
  | zero =>
      intro idx _ hfuel
      rw [chunksGo]
      simp
      omega
  | succ n ih =>
      intro idx h0 hfuel
      by_cases hidx : idx < images.length
      · rw [chunksGo_cons images n idx false hidx (fun _ => h0)]
        have hif : (if (false : Bool) = false then (images.drop (idx - 1)).take 1
            else ([] : List α)) = (images.drop (idx - 1)).take 1 := if_pos rfl
        rw [hif]
        simp only [List.map_cons, List.sum_cons, List.length_cons, List.length_append,
          List.length_take, List.length_drop]
        rw [ih (idx + min 3 (images.length - idx)) (by omega) (by omega)]
        omega
      · rw [chunksGo_stop images n idx false hidx]
        simp
        omega

theorem head?_append_left {α : Type} (o t : List α) (h : o.length = 1) :
    (o ++ t).head? = o.head? := by
  cases o with
  | nil => simp at h
  | cons a o' => rfl

theorem getLast?_append_right {α : Type} (o t : List α) (h : t ≠ []) :
    (o ++ t).getLast? = t.getLast? := List.getLast?_append_of_ne_nil _ h

theorem getLast?_take_drop {α : Type} (images : List α) (idx : ℕ)
    (hidx : idx < images.length) :
    ((images.drop idx).take (min 3 (images.length - idx))).getLast? =
      images[idx + min 3 (images.length - idx) - 1]? := by
  rw [List.getLast?_eq_getElem?, List.length_take, List.length_drop]
  have hm : min (min 3 (images.length - idx)) (images.length - idx) - 1 <
      min 3 (images.length - idx) := by omega
  rw [List.getElem?_take_of_lt hm, List.getElem?_drop]
  congr 1
  omega

/-- The first chunk produced from a mid-loop state starts with the overlap
image `images[idx - 1]`. -/
theorem chunksGo_head_images {α : Type} (images : List α) :
    ∀ (fuel idx : ℕ), 0 < idx → ∀ c, (chunksGo images fuel idx false).head? = some c →
      c.images.head? = images[idx - 1]? := by
  intro fuel idx h0 c hc
  cases fuel with
  | zero =>
      rw [chunksGo] at hc
      cases hc
  | succ n =>
      by_cases hidx : idx < images.length
      · rw [chunksGo_cons images n idx false hidx (fun _ => h0), List.head?_cons] at hc
        injection hc with hc
        subst hc
        show ((if (false : Bool) = false then (images.drop (idx - 1)).take 1 else []) ++
            (images.drop idx).take (min 3 (images.length - idx))).head? = images[idx - 1]?
        rw [if_pos rfl,
          head?_append_left _ _ (overlapSlice_length images idx hidx),
          head?_take_one, head?_drop]
      · rw [chunksGo_stop images n idx false hidx] at hc
        cases hc

/-- Consecutive chunks agree at the seam: each later chunk's first image is
the previous chunk's last image. -/
theorem chunksGo_chain_adj {α : Type} (images : List α) :
    ∀ (fuel idx : ℕ) (b : Bool), (b = false → 0 < idx) →
      List.Chain' (fun c₁ c₂ => c₂.images.head? = c₁.images.getLast?)
        (chunksGo images fuel idx b) := by
  intro fuel
  induction fuel with
  | zero =>
      intro idx b _
      rw [chunksGo]
      exact List.chain'_nil
  | succ n ih =>
      intro idx b hb
      by_cases hidx : idx < images.length
      · rw [chunksGo_cons images n idx b hidx hb, List.chain'_cons']
        refine ⟨?_, ih _ false (fun _ => by omega)⟩
        intro y hy
        have hy' : (chunksGo images n (idx + min 3 (images.length - idx)) false).head? =
            some y := hy
        have h1 : y.images.head? = images[idx + min 3 (images.length - idx) - 1]? :=
          chunksGo_head_images images n _ (by omega) y hy'
        have ht : (images.drop idx).take (min 3 (images.length - idx)) ≠ [] := by
          apply List.ne_nil_of_length_pos
          rw [List.length_take, List.length_drop]
          omega
        rw [h1]
        show images[idx + min 3 (images.length - idx) - 1]? =
          ((if b = false then (images.drop (idx - 1)).take 1 else []) ++
            (images.drop idx).take (min 3 (images.length - idx))).getLast?
        rw [getLast?_append_right _ _ ht, getLast?_take_drop images idx hidx]
      · rw [chunksGo_stop images n idx b hidx]
        exact List.chain'_nil

/-- Every chunk that is followed by another chunk contributes exactly three
fresh images. -/
theorem chunksGo_chain_fresh3 {α : Type} (images : List α) :
    ∀ (fuel idx : ℕ) (b : Bool), (b = false → 0 < idx) →
      List.Chain' (fun c₁ _ => (freshImages c₁).length = 3) (chunksGo images fuel idx b) := by
  intro fuel
  induction fuel with
  | zero =>
      intro idx b _
      rw [chunksGo]
      exact List.chain'_nil
  | succ n ih =>
      intro idx b hb
      by_cases hidx : idx < images.length
      · rw [chunksGo_cons images n idx b hidx hb, List.chain'_cons']
        refine ⟨?_, ih _ false (fun _ => by omega)⟩
        intro y hy
        have hy' : (chunksGo images n (idx + min 3 (images.length - idx)) false).head? =
            some y := hy
        have hne : chunksGo images n (idx + min 3 (images.length - idx)) false ≠ [] := by
          intro h
          rw [h] at hy'
          cases hy'
        have hlt : idx + min 3 (images.length - idx) < images.length :=
          chunksGo_ne_nil_imp images n _ false hne
        rw [freshImages_cons_chunk images idx b hidx, List.length_take, List.length_drop]
        omega
      · rw [chunksGo_stop images n idx b hidx]
        exact List.chain'_nil

/-- Every chunk contributes between one and three fresh images. -/
theorem chunksGo_fresh_bounds {α : Type} (images : List α) :
    ∀ (fuel idx : ℕ) (b : Bool), (b = false → 0 < idx) →
      ∀ c ∈ chunksGo images fuel idx b,
        1 ≤ (freshImages c).length ∧ (freshImages c).length ≤ 3 := by
  intro fuel
  induction fuel with
  | zero => intro idx b _ c hc; cases hc
  | succ n ih =>
      intro idx b hb c hc
      by_cases hidx : idx < images.length
      · rw [chunksGo_cons images n idx b hidx hb] at hc
        rcases List.mem_cons.mp hc with rfl | htail
        · rw [freshImages_cons_chunk images idx b hidx, List.length_take, List.length_drop]
          omega
        · exact ih _ false (fun _ => by omega) c htail
      · rw [chunksGo_stop images n idx b hidx] at hc
        cases hc

theorem buildChunks_ne_nil {α : Type} (images : List α) (h : images ≠ []) :
    buildChunks images ≠ [] := by
  have hl : 0 < images.length := List.length_pos.mpr h
  obtain ⟨m, hm⟩ : ∃ m, images.length = m + 1 := ⟨images.length - 1, by omega⟩
  unfold buildChunks
  rw [hm, chunksGo_cons images m 0 true (by omega) (by simp)]
  simp

theorem buildChunks_head_no_overlap {α : Type} (images : List α) :
    ∀ c, (buildChunks images).head? = some c → c.hasOverlap = false := by
  intro c hc
  by_cases h : images = []
  · subst h
    simp [buildChunks, chunksGo] at hc
  · have hl : 0 < images.length := List.length_pos.mpr h
    obtain ⟨m, hm⟩ : ∃ m, images.length = m + 1 := ⟨images.length - 1, by omega⟩
    unfold buildChunks at hc
    rw [hm, chunksGo_cons images m 0 true (by omega) (by simp), List.head?_cons] at hc
    injection hc with hc
    subst hc
    rfl

theorem buildChunks_tail_overlap {α : Type} (images : List α) :
    ∀ c ∈ (buildChunks images).tail, c.hasOverlap = true := by
  intro c hc
  by_cases h : images = []
  · subst h
    simp [buildChunks, chunksGo] at hc
  · have hl : 0 < images.length := List.length_pos.mpr h
    obtain ⟨m, hm⟩ : ∃ m, images.length = m + 1 := ⟨images.length - 1, by omega⟩
    unfold buildChunks at hc
    rw [hm, chunksGo_cons images m 0 true (by omega) (by simp), List.tail_cons] at hc
    exact chunksGo_overlap_flags images m _ c hc

theorem buildChunks_flatten_fresh {α : Type} (images : List α) :
    ((buildChunks images).map freshImages).flatten = images := by
  unfold buildChunks
  rw [chunksGo_join_fresh images images.length 0 true (by omega) (by simp), List.drop_zero]

theorem buildChunks_sum_len {α : Type} (images : List α) (h : images ≠ []) :
    ((buildChunks images).map (fun c => c.images.length)).sum + 1 =
      images.length + (buildChunks images).length := by
  have hl : 0 < images.length := List.length_pos.mpr h
  obtain ⟨m, hm⟩ : ∃ m, images.length = m + 1 := ⟨images.length - 1, by omega⟩
  unfold buildChunks
  rw [hm, chunksGo_cons images m 0 true (by omega) (by simp)]
  simp only [List.map_cons, List.sum_cons, List.length_cons]
  rw [chunksGo_sum_len images m (0 + min 3 (images.length - 0)) (by omega) (by omega)]
  have hif : (if (true : Bool) = false then (images.drop (0 - 1)).take 1
      else ([] : List α)) = [] := if_neg (by simp)
  rw [hif]
  simp only [List.nil_append, List.length_take, List.length_drop]
  omega

theorem sum_chunkDurations {α : Type} (D : ℚ) (N : ℕ) (cs : List (Chunk α)) :
    (cs.map (chunkDuration D N)).sum =
      D * (((cs.map (fun c => c.images.length)).sum : ℕ) : ℚ) / (N : ℚ) := by
  induction cs with
  | nil => simp
  | cons c cs ih =>
      simp only [List.map_cons, List.sum_cons]
      rw [ih, chunkDuration]
      push_cast
      ring

theorem sum_overlapDurations {α : Type} (D : ℚ) (N : ℕ) (cs : List (Chunk α))
    (h : ∀ c ∈ cs, c.images ≠ []) :
    (cs.map (fun c => chunkDuration D N c / (c.images.length : ℚ))).sum =
      (cs.length : ℚ) * (D / (N : ℚ)) := by
  induction cs with
  | nil => simp
  | cons c cs ih =>
      simp only [List.map_cons, List.sum_cons, List.length_cons]
      rw [ih (fun c hc => h c (List.mem_cons_of_mem _ hc))]
      have hlen : ((c.images.length : ℕ) : ℚ) ≠ 0 := by
        have hne := h c (List.mem_cons_self _ _)
        have := List.length_pos.mpr hne
        exact_mod_cast Nat.pos_iff_ne_zero.mp this
      have hterm : chunkDuration D N c / (c.images.length : ℚ) = D / (N : ℚ) := by
        rw [chunkDuration, div_div, mul_comm (N : ℚ) ((c.images.length : ℕ) : ℚ),
          mul_comm D ((c.images.length : ℕ) : ℚ), mul_div_mul_left _ _ hlen]
      rw [hterm]
      push_cast
      ring

theorem foldl_xfade (T : ℚ) : ∀ (rest : List ℚ) (d : ℚ),
    rest.foldl (fun acc d2 => acc + d2 - T) d = d + rest.sum - rest.length * T := by
  intro rest
  induction rest with
  | nil => intro d; simp
  | cons x xs ih =>
      intro d
      simp only [List.foldl_cons, List.sum_cons, List.length_cons]
      rw [ih]
      push_cast
      ring

/-- Closed form of the cumulative `outputDuration` after all xfade joins. -/
theorem finalOutputDuration_eq (T : ℚ) (durs : List ℚ) (h : durs ≠ []) :
    finalOutputDuration T durs = durs.sum - ((durs.length - 1 : ℕ) : ℚ) * T := by
  cases durs with
  | nil => cases h rfl
  | cons d rest =>
      rw [finalOutputDuration, foldl_xfade, List.sum_cons, List.length_cons,
        Nat.add_sub_cancel]

/-! ### Platform template catalog and request validation
Embedding of `PlatformTemplates` (src/src/templates/PlatformTemplates.js):
the 13 registered platform keys with their duration defaults (all that
`validateAssets` consults), `validateAssets` itself (lines 909-951), and a
control-flow model of `VideoGenerator.generateVideo`
(src/src/core/VideoGenerator.js lines 34-76). -/

/-- Embeds `this.templates[platform]?.duration.default`: `none` exactly when no
template is registered for the identifier. -/
def templateDurationDefault (platform : String) : Option ℚ :=
  if platform = "youtube" then some 35
  else if platform = "youtube_shorts" then some 30
  else if platform = "instagram_reel" then some 30
  else if platform = "instagram_feed" then some 15
  else if platform = "instagram_portrait" then some 30
  else if platform = "instagram" then some 15
  else if platform = "tiktok" then some 30
  else if platform = "facebook" then some 60
  else if platform = "facebook_reels" then some 30
  else if platform = "linkedin" then some 30
  else if platform = "twitter_landscape" then some 30
  else if platform = "twitter_portrait" then some 30
  else if platform = "twitter_square" then some 30
  else none

/-- The asset bundle handed to `generateVideo`. -/
structure Assets where
  images : List String
  logo : Option String
  voiceOver : Option String
  backgroundMusic : Option String
  reviewImage : Option String

/-- The record returned by `PlatformTemplates.validateAssets`. -/
structure ValidationResult where
  valid : Bool
  errors : List String
  warnings : List String
deriving DecidableEq

/-- Embeds `PlatformTemplates.validateAssets(platform, assets)`. -/
def validateAssets (platform : String) (assets : Assets) : ValidationResult :=
  match templateDurationDefault platform with
  | none =>
      { valid := false,
        errors := [s!"No template found for platform: {platform}"],
        warnings := [] }
  | some durationDefault =>
      let errors := if assets.images.length < 3 then ["Minimum 3 images required"] else []
      let warnings :=
        (if assets.logo.isNone then ["No logo provided - video will not have branding"]
         else []) ++
        (if assets.voiceOver.isNone ∧ assets.backgroundMusic.isNone then
          ["No audio provided - video will be silent"] else []) ++
        (if (assets.images.length : ℚ) * 4 < durationDefault then
          ["Images will cycle to fill duration"] else [])
      { valid := errors.isEmpty, errors := errors, warnings := warnings }

/-- The externally visible side effects of a generation job, in order. -/
inductive JobEffect
  | probeOverlayDimensions
  | createWorkDir
  | renderVideo
deriving DecidableEq

/-- Control-flow model of `VideoGenerator.generateVideo`: validation runs
first, and a failed validation throws before the overlay-dimension probe,
before `fs.mkdir` creates the job's working directory and before the
renderer — and hence any encoder subprocess — is invoked.  The
post-validation path is abstracted to the ordered effect trace it performs. -/
def generateVideo (platform : String) (assets : Assets) :
    Except String Unit × List JobEffect :=
  let validation := validateAssets platform assets
  if validation.valid = false then
    (Except.error ("Asset validation failed: " ++
       String.intercalate ", " validation.errors), [])
  else
    (Except.ok (),
     [JobEffect.probeOverlayDimensions, JobEffect.createWorkDir, JobEffect.renderVideo])

/-! ### JavaScript number semantics for the zero-dimension edge case
`calculateLogoSize` divides by the asset height, so IEEE-754 special values
matter there; `JSNum` models the JavaScript doubles arithmetic used along
that code path (with exact rationals in place of finite doubles). -/

inductive JSNum
  | nan
  | posInf
  | negInf
  | num (q : ℚ)
deriving DecidableEq

namespace JSNum

def neg : JSNum → JSNum
  | nan => nan
  | posInf => negInf
  | negInf => posInf
  | num q => num (-q)

def add : JSNum → JSNum → JSNum
  | nan, _ => nan
  | _, nan => nan
  | posInf, negInf => nan
  | negInf, posInf => nan
  | posInf, _ => posInf
  | _, posInf => posInf
  | negInf, _ => negInf
  | _, negInf => negInf
  | num a, num b => num (a + b)

def sub (a b : JSNum) : JSNum := add a (neg b)

def mul : JSNum → JSNum → JSNum
  | nan, _ => nan
  | _, nan => nan
  | posInf, posInf => posInf
  | posInf, negInf => negInf
  | negInf, posInf => negInf
  | negInf, negInf => posInf
  | posInf, num q => if q = 0 then nan else if 0 < q then posInf else negInf
  | num q, posInf => if q = 0 then nan else if 0 < q then posInf else negInf
  | negInf, num q => if q = 0 then nan else if 0 < q then negInf else posInf
  | num q, negInf => if q = 0 then nan else if 0 < q then negInf else posInf
  | num a, num b => num (a * b)

def div : JSNum → JSNum → JSNum
  | nan, _ => nan
  | _, nan => nan
  | posInf, posInf => nan
  | posInf, negInf => nan
  | negInf, posInf => nan
  | negInf, negInf => nan
  | posInf, num q => if 0 ≤ q then posInf else negInf
  | negInf, num q => if 0 ≤ q then negInf else posInf
  | num _, posInf => num 0
  | num _, negInf => num 0
  | num a, num b =>
      if b = 0 then (if a = 0 then nan else if 0 < a then posInf else negInf)
      else num (a / b)

def lt : JSNum → JSNum → Bool
  | nan, _ => false
  | _, nan => false
  | posInf, _ => false
  | negInf, negInf => false
  | negInf, _ => true
  | num _, posInf => true
  | num _, negInf => false
  | num a, num b => decide (a < b)

/-- JavaScript `Math.min` of two values: NaN-propagating. -/
def jmin : JSNum → JSNum → JSNum
  | nan, _ => nan
  | _, nan => nan
  | a, b => if lt a b then a else b

/-- JavaScript `Math.max` of two values: NaN-propagating. -/
def jmax : JSNum → JSNum → JSNum
  | nan, _ => nan
  | _, nan => nan
  | a, b => if lt b a then a else b

/-- JavaScript `Math.round`: NaN and infinities pass through. -/
def round : JSNum → JSNum
  | num q => num ((⌊q + 1/2⌋ : ℤ) : ℚ)
  | x => x

end JSNum

/-- The width/height/x/y/scale slots of `calculateLogoSize`'s result under
JavaScript number semantics. -/
structure LogoSizeJS where
  width : JSNum
  height : JSNum
  x : JSNum
  y : JSNum
  scale : JSNum
deriving DecidableEq

/-- Embeds `calculateLogoSize` re-read under JavaScript doubles semantics (same code
path as `calculateLogoSize`, src/unnamed/part_005 lines 280-356, with the
bottom-right `calculateGoldenPosition` branch inlined). -/
def calculateLogoSizeJS (platform : String)
    (videoWidth videoHeight originalLogoWidth originalLogoHeight : JSNum) : LogoSizeJS :=
  let config := platformConfig platform
  let aspectRatio := JSNum.div videoWidth videoHeight
  let referenceDimension :=
    if config.reference == "width" || JSNum.lt aspectRatio (JSNum.num 0.7) then videoWidth
    else videoHeight
  let targetSize := JSNum.mul referenceDimension (JSNum.num config.logoHeightPercent)
  let logoAspectRatio := JSNum.div originalLogoWidth originalLogoHeight
  let scaledHeight :=
    if JSNum.lt (JSNum.num 1) logoAspectRatio then
      let scaledWidth := JSNum.mul targetSize logoAspectRatio
      let maxWidth0 := JSNum.mul (JSNum.mul videoWidth (JSNum.num phiInverse)) (JSNum.num 0.5)
      let maxWidth :=
        match config.maxWidthPercent with
        | some p =>
            if JSNum.lt (JSNum.mul videoWidth (JSNum.num p)) maxWidth0 then
              JSNum.mul videoWidth (JSNum.num p)
            else maxWidth0
        | none => maxWidth0
      if JSNum.lt maxWidth scaledWidth then JSNum.div maxWidth logoAspectRatio else targetSize
    else targetSize
  let scale := JSNum.jmin (JSNum.div scaledHeight originalLogoHeight)
    (JSNum.jmin (JSNum.div (JSNum.num config.maxSize) originalLogoHeight)
      (JSNum.mul (JSNum.div (JSNum.num config.maxSize) originalLogoWidth) logoAspectRatio))
  let finalHeight := JSNum.jmax
    (JSNum.jmin (JSNum.mul originalLogoHeight scale) (JSNum.num config.maxSize))
    (JSNum.num config.minSize)
  let finalWidth := JSNum.mul finalHeight logoAspectRatio
  let marginX := JSNum.mul videoWidth (JSNum.num minClearSpaceRatio)
  let marginY := JSNum.mul videoHeight (JSNum.num minClearSpaceRatio)
  { width := JSNum.round finalWidth
    height := JSNum.round finalHeight
    x := JSNum.round (JSNum.sub (JSNum.sub videoWidth finalWidth) marginX)
    y := JSNum.round (JSNum.sub (JSNum.sub videoHeight finalHeight) marginY)
    scale := scale }

/-- C1 counterexample: with a transition duration of exactly 0, the builder's
falsy-value fallback substitutes the 0.5 s default, so for 2 images and a
10 s target the per-image duration is (10 + 0.5) / 2 = 5.25 and not
(10 + (2 - 1) * 0) / 2 = 5; the as-stated formula fails at T = 0. -/
theorem c1_zero_transition_fallback :
    actualImageDuration 10 0 2 = 21/4 ∧
    (10 + ((2 : ℚ) - 1) * 0) / (2 : ℚ) = 5 ∧
    actualImageDuration 10 0 2 ≠ (10 + ((2 : ℚ) - 1) * 0) / (2 : ℚ) := by
  refine ⟨?_, by norm_num, ?_⟩ <;>
    norm_num [actualImageDuration, adjustedDuration, resolvedTransitionDuration,
      transitionCount]

/-- C1 (amended): For every image sequence of N ≥ 1 images, nonzero transition
duration T (a zero or missing duration falls back to the 0.5 s default) and
target duration D, `buildFilterComplex` gives each image
`(D + (N - 1) * T) / N` seconds, and the sum of the N per-image durations
minus `(N - 1) * T` equals D exactly. -/
theorem c1_duration_compensation (n : ℕ) (hn : 1 ≤ n) (T D : ℚ) (hT : T ≠ 0) :
    actualImageDuration D T n = (D + ((n : ℚ) - 1) * T) / (n : ℚ) ∧
    (∑ _i ∈ Finset.range n, actualImageDuration D T n) - ((n : ℚ) - 1) * T = D := by
  have hcast : ((transitionCount n : ℕ) : ℚ) = (n : ℚ) - 1 := by
    unfold transitionCount
    rw [Nat.cast_sub hn, Nat.cast_one]
  have hform : actualImageDuration D T n = (D + ((n : ℚ) - 1) * T) / (n : ℚ) := by
    unfold actualImageDuration adjustedDuration resolvedTransitionDuration
    rw [if_neg hT, hcast]
  refine ⟨hform, ?_⟩
  have hne : (n : ℚ) ≠ 0 := by
    exact_mod_cast Nat.one_le_iff_ne_zero.mp hn
  rw [Finset.sum_const, Finset.card_range, nsmul_eq_mul, hform]
  field_simp

/-- Witness for C1 at N = 3, T = 1/2, D = 15. -/
theorem c1_duration_compensation_witness :
    (1 ≤ 3) ∧ ((1 : ℚ)/2 ≠ 0) ∧
    (actualImageDuration 15 (1/2) 3 = (15 + ((3 : ℚ) - 1) * (1/2)) / (3 : ℚ) ∧
     (∑ _i ∈ Finset.range 3, actualImageDuration 15 (1/2) 3) - ((3 : ℚ) - 1) * (1/2) = 15) :=
  ⟨by norm_num, by norm_num, c1_duration_compensation 3 (by norm_num) (1/2) 15 (by norm_num)⟩

/-- C4: for positive aspect ratios, with mismatch = |imageAspect − frameAspect| /
frameAspect, `recommendMode` returns crop-fill when mismatch < 0.2,
blur-background when 0.2 ≤ mismatch < 0.5 and letterbox when mismatch ≥ 0.5;
the boundary values 0.2 and 0.5 land on the blur-background and letterbox
sides respectively. -/
theorem c4_recommend_mode_thresholds (imageAspect frameAspect : ℚ)
    (hf : 0 < frameAspect) (hi : 0 < imageAspect) :
    (|imageAspect - frameAspect| / frameAspect < 0.2 →
       recommendMode imageAspect frameAspect = "crop_fill") ∧
    (0.2 ≤ |imageAspect - frameAspect| / frameAspect →
       |imageAspect - frameAspect| / frameAspect < 0.5 →
       recommendMode imageAspect frameAspect = "blur_bg") ∧
    (0.5 ≤ |imageAspect - frameAspect| / frameAspect →
       recommendMode imageAspect frameAspect = "letterbox") ∧
    (|imageAspect - frameAspect| / frameAspect = 0.2 →
       recommendMode imageAspect frameAspect = "blur_bg") ∧
    (|imageAspect - frameAspect| / frameAspect = 0.5 →
       recommendMode imageAspect frameAspect = "letterbox") := by
  unfold recommendMode
  refine ⟨fun h => by simp only [if_pos h], fun h1 h2 => ?_, fun h => ?_, fun h => ?_, fun h => ?_⟩
  · rw [if_neg (not_lt.mpr h1), if_pos h2]
  · rw [if_neg (not_lt.mpr (le_trans (by norm_num) h)), if_neg (not_lt.mpr h)]
  · rw [if_neg (by rw [h]; norm_num), if_pos (by rw [h]; norm_num)]
  · rw [if_neg (by rw [h]; norm_num), if_neg (by rw [h]; norm_num)]

/-- Witness for C4 at imageAspect = 16/9, frameAspect = 9/16 (severe mismatch,
letterbox). -/
theorem c4_recommend_mode_thresholds_witness :
    (0 : ℚ) < 9/16 ∧ (0 : ℚ) < 16/9 ∧
    recommendMode (16/9) (9/16) = "letterbox" :=
  ⟨by norm_num, by norm_num,
   (c4_recommend_mode_thresholds (16/9) (9/16) (by norm_num) (by norm_num)).2.2.1
     (by rw [abs_of_pos (by norm_num)]; norm_num)⟩

/-- C10: on the single-pass path (image count ≤ 6) the transition duration
actually handed to `buildFilterComplex` depends only on the image count —
0.6 s for at most 5 images and 0.4 s for exactly 6 — regardless of the
caller's requested duration, while the batched path (more than 6 images)
passes the caller's transition spec through unmodified. -/
theorem c10_transition_override (n : ℕ) (t : TransitionSpec) :
    (n ≤ 5 → effectiveTransition n t = { t with duration := 0.6 }) ∧
    (n = 6 → effectiveTransition n t = { t with duration := 0.4 }) ∧
    (6 < n → effectiveTransition n t = t) := by
  refine ⟨fun h5 => ?_, fun h6 => ?_, fun h => ?_⟩
  · unfold effectiveTransition adjustedTransition
    rw [if_neg (by omega), if_neg (by omega), if_neg (by omega)]
  · subst h6
    unfold effectiveTransition adjustedTransition
    norm_num
  · unfold effectiveTransition
    rw [if_pos h]

/-- Witness for C10 at n = 4 with a caller-requested 0.5 s fade. -/
theorem c10_transition_override_witness :
    (4 ≤ 5) ∧ effectiveTransition 4 ⟨"fade", 0.5⟩ = ⟨"fade", 0.6⟩ :=
  ⟨by norm_num, (c10_transition_override 4 ⟨"fade", 0.5⟩).1 (by norm_num)⟩

/-- C5: the letterbox filter builder fills the frame (scale-to-cover plus
center crop) exactly when the image's orientation (aspect ratio < 1) matches
the frame's and the relative aspect mismatch `|frameAspect − imageAspect| /
frameAspect` is below 0.15; otherwise it scales the image to fit and centers
it over a solid background-color field (bars). -/
theorem c5_letterbox_fill_vs_bars (inputIndex videoWidth videoHeight imageWidth imageHeight : ℕ)
    (backgroundColor : String) :
    ((((videoWidth : ℚ) / (videoHeight : ℚ) < 1 ↔ (imageWidth : ℚ) / (imageHeight : ℚ) < 1) ∧
        |(videoWidth : ℚ) / (videoHeight : ℚ) - (imageWidth : ℚ) / (imageHeight : ℚ)| /
          ((videoWidth : ℚ) / (videoHeight : ℚ)) < 0.15) →
      buildLetterboxFilter inputIndex videoWidth videoHeight imageWidth imageHeight backgroundColor =
        s!"[{inputIndex}:v]scale={videoWidth}:{videoHeight}:force_original_aspect_ratio=increase,crop={videoWidth}:{videoHeight}[letterboxed]") ∧
    (¬ ((((videoWidth : ℚ) / (videoHeight : ℚ) < 1 ↔ (imageWidth : ℚ) / (imageHeight : ℚ) < 1) ∧
        |(videoWidth : ℚ) / (videoHeight : ℚ) - (imageWidth : ℚ) / (imageHeight : ℚ)| /
          ((videoWidth : ℚ) / (videoHeight : ℚ)) < 0.15)) →
      buildLetterboxFilter inputIndex videoWidth videoHeight imageWidth imageHeight backgroundColor =
        String.intercalate ";"
          [s!"color=c={backgroundColor}:s={videoWidth}x{videoHeight}[bg{inputIndex}]",
           s!"[{inputIndex}:v]scale={videoWidth}:{videoHeight}:force_original_aspect_ratio=decrease[img{inputIndex}]",
           s!"[bg{inputIndex}][img{inputIndex}]overlay=(W-w)/2:(H-h)/2[letterboxed]"]) := by
  unfold buildLetterboxFilter
  constructor
  · intro h
    rw [if_pos h]
  · intro h
    rw [if_neg h]

/-- Witness for C5: a 1080×1920 frame with a 1000×1920 image (orientations
match, mismatch ≈ 7% < 15%) is filled, not letterboxed. -/
theorem c5_letterbox_fill_vs_bars_witness :
    ((((1080 : ℚ) / (1920 : ℚ) < 1 ↔ (1000 : ℚ) / (1920 : ℚ) < 1) ∧
        |(1080 : ℚ) / (1920 : ℚ) - (1000 : ℚ) / (1920 : ℚ)| /
          ((1080 : ℚ) / (1920 : ℚ)) < 0.15)) ∧
    buildLetterboxFilter 0 1080 1920 1000 1920 "#2a2a2a" =
      "[0:v]scale=1080:1920:force_original_aspect_ratio=increase,crop=1080:1920[letterboxed]" := by
  have hcond : (((1080 : ℚ) / (1920 : ℚ) < 1 ↔ (1000 : ℚ) / (1920 : ℚ) < 1) ∧
      |(1080 : ℚ) / (1920 : ℚ) - (1000 : ℚ) / (1920 : ℚ)| /
        ((1080 : ℚ) / (1920 : ℚ)) < 0.15) := by
    constructor
    · constructor <;> intro <;> norm_num
    · rw [abs_of_pos (by norm_num)]
      norm_num
  exact ⟨hcond, (c5_letterbox_fill_vs_bars 0 1080 1920 1000 1920 "#2a2a2a").1 hcond⟩

/-- C7 counterexample: when only the voice-over is present the emitted audio
filter is a bare `adelay` — no fade (`afade`) is applied — refuting the
claim's "when exactly one track is present, that track is emitted with its
own fades applied" for the voice-only case. -/
theorem c7_voice_only_no_fade :
    audioFilters (some 3) none 30 = ["[3:a]adelay=1500|1500[audio]"] ∧
    occursIn "afade".toList
      (String.intercalate ";" (audioFilters (some 3) none 30)).toList = false := by
  refine ⟨rfl, ?_⟩
  set_option maxHeartbeats 1000000 in decide

/-- C7 (amended): when both a voice-over and a music track are present the
voice-over is delayed by a fixed lead-in, the music is faded in and out with
reduced volume, and the two are mixed; when only the music track is present it
is emitted with its own fades and reduced volume; when only the voice-over is
present it is emitted with its lead-in delay (no fades); when neither is
present a silent track whose duration equals the output duration is
synthesized. -/
theorem c7_audio_cases (v m : ℕ) (d : ℚ) :
    audioFilters (some v) (some m) d =
      [s!"[{v}:a]adelay=1500|1500[delayed_voice]",
       s!"[{m}:a]afade=t=in:st=0:d=1.5,afade=t=out:st={d - 1.5}:d=1.5,volume=0.15[music_faded]",
       "[delayed_voice][music_faded]amix=inputs=2:duration=longest[audio]"] ∧
    audioFilters (some v) none d = [s!"[{v}:a]adelay=1500|1500[audio]"] ∧
    audioFilters none (some m) d =
      [s!"[{m}:a]afade=t=in:st=0:d=1.5,afade=t=out:st={d - 1.5}:d=1.5,volume=0.3[audio]"] ∧
    audioFilters none none d =
      [s!"anullsrc=channel_layout=stereo:sample_rate=48000:duration={d}[audio]"] :=
  ⟨rfl, rfl, rfl, rfl⟩

/-- C6: for every platform (each resolves to a declared [minSize, maxSize]
range) and every overlay asset with positive width and height, the computed
logo height lies in [minSize, maxSize]; the min clamp is applied last, so the
unrounded final height is never below minSize regardless of the other rules;
and the width/height ratio equals the asset's original ratio exactly before
rounding and within rounding tolerance after rounding. -/
theorem c6_logo_size_bounds (platform : String) (videoWidth videoHeight lw lh : ℚ)
    (hlw : 0 < lw) (hlh : 0 < lh) :
    (((platformConfig platform).minSize : ℤ) ≤
        (calculateLogoSize platform videoWidth videoHeight lw lh).height ∧
      (calculateLogoSize platform videoWidth videoHeight lw lh).height ≤
        ((platformConfig platform).maxSize : ℤ)) ∧
    ((platformConfig platform).minSize : ℚ) ≤
      logoFinalHeight platform videoWidth videoHeight lw lh ∧
    logoFinalWidth platform videoWidth videoHeight lw lh /
      logoFinalHeight platform videoWidth videoHeight lw lh = lw / lh ∧
    |((calculateLogoSize platform videoWidth videoHeight lw lh).width : ℚ) -
        (lw / lh) * ((calculateLogoSize platform videoWidth videoHeight lw lh).height : ℚ)| ≤
      (1 + lw / lh) / 2 := by
  obtain ⟨hminpos, hminmax⟩ := platformConfig_range_valid platform
  have hfH_eq : logoFinalHeight platform videoWidth videoHeight lw lh =
      max (min (lh * logoScale platform videoWidth videoHeight lw lh)
            ((platformConfig platform).maxSize : ℚ))
        ((platformConfig platform).minSize : ℚ) := rfl
  have hfH_lb : ((platformConfig platform).minSize : ℚ) ≤
      logoFinalHeight platform videoWidth videoHeight lw lh := by
    rw [hfH_eq]; exact le_max_right _ _
  have hfH_ub : logoFinalHeight platform videoWidth videoHeight lw lh ≤
      ((platformConfig platform).maxSize : ℚ) := by
    rw [hfH_eq]
    exact max_le (min_le_right _ _) (by exact_mod_cast hminmax)
  have hheight : (calculateLogoSize platform videoWidth videoHeight lw lh).height =
      jsRound (logoFinalHeight platform videoWidth videoHeight lw lh) := rfl
  have hwidth : (calculateLogoSize platform videoWidth videoHeight lw lh).width =
      jsRound (logoFinalWidth platform videoWidth videoHeight lw lh) := rfl
  have hfH_pos : 0 < logoFinalHeight platform videoWidth videoHeight lw lh :=
    lt_of_lt_of_le (by exact_mod_cast hminpos) hfH_lb
  have hfW_eq : logoFinalWidth platform videoWidth videoHeight lw lh =
      logoFinalHeight platform videoWidth videoHeight lw lh * (lw / lh) := rfl
  have hq : 0 ≤ lw / lh := le_of_lt (div_pos hlw hlh)
  refine ⟨⟨?_, ?_⟩, hfH_lb, ?_, ?_⟩
  · rw [hheight]; exact le_jsRound_of_le _ _ hfH_lb
  · rw [hheight]; exact jsRound_le_of_le _ _ hfH_ub
  · rw [hfW_eq]
    exact mul_div_cancel_left₀ _ (ne_of_gt hfH_pos)
  · rw [hheight, hwidth, hfW_eq]
    have hd1 : |(jsRound (logoFinalHeight platform videoWidth videoHeight lw lh * (lw / lh)) : ℚ) -
        logoFinalHeight platform videoWidth videoHeight lw lh * (lw / lh)| ≤ 1/2 := jsRound_dist _
    have hd2 : |(jsRound (logoFinalHeight platform videoWidth videoHeight lw lh) : ℚ) -
        logoFinalHeight platform videoWidth videoHeight lw lh| ≤ 1/2 := jsRound_dist _
    have habs : |logoFinalHeight platform videoWidth videoHeight lw lh -
        (jsRound (logoFinalHeight platform videoWidth videoHeight lw lh) : ℚ)| ≤ 1/2 := by
      rw [abs_sub_comm]; exact hd2
    calc |(jsRound (logoFinalHeight platform videoWidth videoHeight lw lh * (lw / lh)) : ℚ) -
            (lw / lh) * (jsRound (logoFinalHeight platform videoWidth videoHeight lw lh) : ℚ)|
        = |((jsRound (logoFinalHeight platform videoWidth videoHeight lw lh * (lw / lh)) : ℚ) -
              logoFinalHeight platform videoWidth videoHeight lw lh * (lw / lh)) +
            (lw / lh) * (logoFinalHeight platform videoWidth videoHeight lw lh -
              (jsRound (logoFinalHeight platform videoWidth videoHeight lw lh) : ℚ))| := by
          ring_nf
      _ ≤ |(jsRound (logoFinalHeight platform videoWidth videoHeight lw lh * (lw / lh)) : ℚ) -
              logoFinalHeight platform videoWidth videoHeight lw lh * (lw / lh)| +
            |(lw / lh) * (logoFinalHeight platform videoWidth videoHeight lw lh -
              (jsRound (logoFinalHeight platform videoWidth videoHeight lw lh) : ℚ))| :=
          abs_add _ _
      _ ≤ 1/2 + (lw / lh) * (1/2) := by
          have := abs_mul (lw / lh) (logoFinalHeight platform videoWidth videoHeight lw lh -
            (jsRound (logoFinalHeight platform videoWidth videoHeight lw lh) : ℚ))
          rw [this, abs_of_nonneg hq]
          have hmul : (lw / lh) * |logoFinalHeight platform videoWidth videoHeight lw lh -
              (jsRound (logoFinalHeight platform videoWidth videoHeight lw lh) : ℚ)| ≤
              (lw / lh) * (1/2) := mul_le_mul_of_nonneg_left habs hq
          linarith
      _ = (1 + lw / lh) / 2 := by ring

/-- Witness for C6 at platform youtube, frame 1920×1080, logo 400×200. -/
theorem c6_logo_size_bounds_witness :
    (0 : ℚ) < 400 ∧ (0 : ℚ) < 200 ∧
    ((((platformConfig "youtube").minSize : ℤ) ≤
        (calculateLogoSize "youtube" 1920 1080 400 200).height ∧
      (calculateLogoSize "youtube" 1920 1080 400 200).height ≤
        ((platformConfig "youtube").maxSize : ℤ)) ∧
    ((platformConfig "youtube").minSize : ℚ) ≤ logoFinalHeight "youtube" 1920 1080 400 200 ∧
    logoFinalWidth "youtube" 1920 1080 400 200 /
      logoFinalHeight "youtube" 1920 1080 400 200 = 400 / 200 ∧
    |((calculateLogoSize "youtube" 1920 1080 400 200).width : ℚ) -
        (400 / 200) * ((calculateLogoSize "youtube" 1920 1080 400 200).height : ℚ)| ≤
      (1 + 400 / 200) / 2) :=
  ⟨by norm_num, by norm_num,
   c6_logo_size_bounds "youtube" 1920 1080 400 200 (by norm_num) (by norm_num)⟩

/-- C3: image count at most 6 renders as a single filter graph, above 6 the
list is partitioned into batches of 3 new images (the final batch taking the
1-3 remaining), every batch after the first re-includes the previous batch's
last image as its first image and carries the overlap flag, and a 10-image
list yields exactly 4 batches with overlaps on all but the first. -/
theorem c3_batching (α : Type) (images : List α) :
    (images.length ≤ 6 → buildCommandPath images.length = RenderPath.singleGraph) ∧
    (6 < images.length → buildCommandPath images.length = RenderPath.chunked) ∧
    ((buildChunks images).map freshImages).flatten = images ∧
    List.Chain' (fun c₁ c₂ => c₂.images.head? = c₁.images.getLast?) (buildChunks images) ∧
    (∀ c, (buildChunks images).head? = some c → c.hasOverlap = false) ∧
    (∀ c ∈ (buildChunks images).tail, c.hasOverlap = true) ∧
    List.Chain' (fun c₁ _ => (freshImages c₁).length = 3) (buildChunks images) ∧
    (∀ c ∈ buildChunks images, 1 ≤ (freshImages c).length ∧ (freshImages c).length ≤ 3) ∧
    (∀ (a₀ a₁ a₂ a₃ a₄ a₅ a₆ a₇ a₈ a₉ : α),
      buildChunks [a₀, a₁, a₂, a₃, a₄, a₅, a₆, a₇, a₈, a₉] =
        [⟨[a₀, a₁, a₂], 0, false⟩, ⟨[a₂, a₃, a₄, a₅], 3, true⟩,
         ⟨[a₅, a₆, a₇, a₈], 6, true⟩, ⟨[a₈, a₉], 9, true⟩]) := by
  refine ⟨fun h => ?_, fun h => ?_, buildChunks_flatten_fresh images,
    chunksGo_chain_adj images images.length 0 true (by simp),
    buildChunks_head_no_overlap images, buildChunks_tail_overlap images,
    chunksGo_chain_fresh3 images images.length 0 true (by simp),
    chunksGo_fresh_bounds images images.length 0 true (by simp),
    fun a₀ a₁ a₂ a₃ a₄ a₅ a₆ a₇ a₈ a₉ => rfl⟩
  · unfold buildCommandPath
    rw [if_neg (by omega)]
  · unfold buildCommandPath
    rw [if_pos h]

/-- Witness for C3 on the concrete 10-element list `[0, 1, ..., 9]`. -/
theorem c3_batching_witness :
    (6 < (List.range 10).length) ∧
    buildCommandPath (List.range 10).length = RenderPath.chunked ∧
    (buildChunks (List.range 10)).length = 4 := by
  refine ⟨by simp, (c3_batching ℕ (List.range 10)).2.1 (by simp), ?_⟩
  have h10 := (c3_batching ℕ (List.range 10)).2.2.2.2.2.2.2.2 0 1 2 3 4 5 6 7 8 9
  rw [show List.range 10 = [0, 1, 2, 3, 4, 5, 6, 7, 8, 9] from rfl, h10]
  rfl

/-- C2: for a batched render (more than 6 images) with target duration D and
transition duration T: every per-batch duration is
`D * batchImageCount / totalImageCount` (overlap image included); the tracked
stitched output duration after the xfade joins is
`previousOutput + nextBatchDuration - T` accumulated, i.e. the batch-duration
sum minus `(batchCount - 1) * T`; and the batch-duration sum minus the
durations of the duplicated overlap images at the `batchCount - 1` seams
(each `chunkDuration / batchImageCount`, the code's `overlapDuration`)
equals D exactly. -/
theorem c2_duration_invariant (α : Type) (images : List α) (hlen : 6 < images.length)
    (D T : ℚ) :
    (∀ c ∈ buildChunks images, chunkDuration D images.length c =
        D * (c.images.length : ℚ) / (images.length : ℚ)) ∧
    finalOutputDuration T ((buildChunks images).map (chunkDuration D images.length)) =
      ((buildChunks images).map (chunkDuration D images.length)).sum -
        (((buildChunks images).length - 1 : ℕ) : ℚ) * T ∧
    ((buildChunks images).map (chunkDuration D images.length)).sum -
      (((buildChunks images).dropLast).map
        (fun c => chunkDuration D images.length c / (c.images.length : ℚ))).sum = D := by
  have hne : images ≠ [] := by
    intro h
    rw [h] at hlen
    simp at hlen
  have hkne : buildChunks images ≠ [] := buildChunks_ne_nil images hne
  have hk1 : 1 ≤ (buildChunks images).length := List.length_pos.mpr hkne
  refine ⟨fun c _ => rfl, ?_, ?_⟩
  · rw [finalOutputDuration_eq T _ (by simpa using hkne), List.length_map]
  · have hsub : ∀ c ∈ (buildChunks images).dropLast, c.images ≠ [] := fun c hc =>
      chunksGo_images_ne_nil images images.length 0 true c
        ((List.dropLast_sublist (buildChunks images)).subset hc)
    rw [sum_chunkDurations, sum_overlapDurations D images.length _ hsub,
      List.length_dropLast]
    have hS := buildChunks_sum_len images hne
    have hN : ((images.length : ℕ) : ℚ) ≠ 0 := by
      exact_mod_cast Nat.pos_iff_ne_zero.mp (by omega)
    have hSq : ((((buildChunks images).map (fun c => c.images.length)).sum : ℕ) : ℚ) =
        ((images.length : ℕ) : ℚ) + (((buildChunks images).length : ℕ) : ℚ) - 1 := by
      have : ((((buildChunks images).map (fun c => c.images.length)).sum : ℕ) : ℚ) + 1 =
          ((images.length : ℕ) : ℚ) + (((buildChunks images).length : ℕ) : ℚ) := by
        exact_mod_cast hS
      linarith
    rw [hSq, Nat.cast_sub hk1]
    field_simp
    ring

/-- Witness for C2 on the 10-image list `[0, ..., 9]` with D = 30, T = 1/2:
the overlap-corrected batch-duration sum equals 30 exactly. -/
theorem c2_duration_invariant_witness :
    6 < (List.range 10).length ∧
    ((buildChunks (List.range 10)).map (chunkDuration 30 (List.range 10).length)).sum -
      (((buildChunks (List.range 10)).dropLast).map
        (fun c => chunkDuration 30 (List.range 10).length c / (c.images.length : ℚ))).sum =
      30 :=
  ⟨by simp, (c2_duration_invariant ℕ (List.range 10) (by simp) 30 (1/2)).2.2⟩

/-- C8: a request naming a platform with no registered template fails
validation with an invalid-request error, and the job performs no side
effects at all — in particular the working directory is never created and no
encoder subprocess is spawned. -/
theorem c8_unknown_platform (platform : String) (assets : Assets)
    (h : templateDurationDefault platform = none) :
    generateVideo platform assets =
      (Except.error ("Asset validation failed: " ++
         s!"No template found for platform: {platform}"), []) ∧
    JobEffect.createWorkDir ∉ (generateVideo platform assets).2 ∧
    JobEffect.renderVideo ∉ (generateVideo platform assets).2 := by
  have hv : validateAssets platform assets =
      { valid := false,
        errors := [s!"No template found for platform: {platform}"],
        warnings := [] } := by
    unfold validateAssets
    rw [h]
  have hg : generateVideo platform assets =
      (Except.error ("Asset validation failed: " ++
        String.intercalate ", " [s!"No template found for platform: {platform}"]), []) := by
    unfold generateVideo
    rw [hv]
    rfl
  have hi : String.intercalate ", " [s!"No template found for platform: {platform}"] =
      s!"No template found for platform: {platform}" := rfl
  rw [hi] at hg
  refine ⟨hg, ?_, ?_⟩ <;> rw [hg] <;> simp

/-- Witness for C8 at the unregistered platform identifier `myspace`. -/
theorem c8_unknown_platform_witness :
    templateDurationDefault "myspace" = none ∧
    generateVideo "myspace" ⟨["a", "b", "c"], none, none, none, none⟩ =
      (Except.error "Asset validation failed: No template found for platform: myspace",
       []) := by
  refine ⟨rfl, ?_⟩
  have h := (c8_unknown_platform "myspace" ⟨["a", "b", "c"], none, none, none, none⟩ rfl).1
  rw [h]
  rfl

set_option maxHeartbeats 2000000 in
/-- C9 (divergence witness): for a logo asset reporting height 0 on platform
youtube with a 1920×1080 frame, `calculateLogoSize` under JavaScript number
semantics returns NaN for width, height, x, y and scale — no documented
default size is substituted and the results are not finite. -/
theorem c9_zero_height_logo_nan :
    calculateLogoSizeJS "youtube" (JSNum.num 1920) (JSNum.num 1080)
        (JSNum.num 100) (JSNum.num 0) =
      { width := JSNum.nan, height := JSNum.nan, x := JSNum.nan, y := JSNum.nan,
        scale := JSNum.nan } := by
  have hs : (("height" : String) = "width") = False := by simp
  norm_num [calculateLogoSizeJS, platformConfig, JSNum.div, JSNum.lt, JSNum.mul,
    JSNum.jmin, JSNum.jmax, JSNum.round, JSNum.sub, JSNum.add, JSNum.neg,
    phiInverse, minClearSpaceRatio, hs]

end VideoStacking
